import Mathlib

/-!
Shallow embedding of the FS6.3 banking service (src/app.js).

The service stores Account documents (fields name and balance) in a MongoDB
collection keyed by ObjectId, and exposes POST /transfer, which validates the
request body, reads both accounts with findById, checks funds, mutates the two
in-memory documents, and saves them one after the other with two independent,
unconditional save calls (the source comments this as: No DB Transaction).

Modelling choices, each matching the source:
  - The amount field of a request body is an arbitrary JavaScript value:
    JSVal covers numbers (finite rationals, the two infinities and NaN),
    strings and undefined, with JavaScript truthiness and comparison
    semantics for exactly the operations the source performs on it.
  - Account ids are strings; the empty string stands for a missing or empty
    field (both are falsy in the check on line 86 and behave identically in
    every later step).
  - Stored balances are rationals. Finite JavaScript numbers are modelled as
    exact rationals; every balance the service can ever store is finite,
    because the arithmetic on lines 121-122 is only reached when the amount
    is a finite number (NaN is falsy and rejected on line 86, a non-number is
    rejected on line 89, and an infinite amount always fails the funds check
    on line 111 since a finite balance compares below positive infinity).
  - The database is an association list from id to Account; findById returns
    the first binding, save overwrites the bindings of the saved id and is a
    no-op when the document is absent (a fetched Mongoose document always
    exists, so this case is unreachable on the transfer path).
  - Each save can be made to fail (the catch on line 135 returns HTTP 500);
    a failed save performs no write. The two Booleans passed to transfer
    inject these outcomes.
  - The transfer function also returns the list of store operations it
    performed, to state claims about which documents are read and written.
-/

/-- A JavaScript number: a finite value (modelled exactly as a rational),
positive or negative infinity, or NaN. -/
inductive JSNum where
  | fin (q : ℚ)
  | posInf
  | negInf
  | nan
deriving DecidableEq, Repr

/-- A JavaScript value as far as the amount field is concerned: a number,
a string, or undefined (covers an absent field). -/
inductive JSVal where
  | num (n : JSNum)
  | str (s : String)
  | undef
deriving DecidableEq, Repr

/-- JavaScript truthiness of an id field (line 86): an id field is falsy
exactly when it is missing or the empty string; both are modelled as "". -/
def jsFalsyId (s : String) : Bool := s = ""

/-- JavaScript truthiness of the amount value (line 86): undefined, the empty
string, the number 0 and NaN are falsy. -/
def jsFalsy : JSVal → Bool
  | .undef => true
  | .str s => s = ""
  | .num (.fin q) => q = 0
  | .num .nan => true
  | .num .posInf => false
  | .num .negInf => false

/-- The test typeof amount === number (line 89). -/
def isNumberVal : JSVal → Bool
  | .num _ => true
  | .str _ => false
  | .undef => false

/-- The JavaScript comparison amount <= 0 (line 89). NaN compares false to
everything. The non-number cases are unreachable in the source: the
short-circuit on line 89 evaluates the comparison only after the typeof
check has passed. -/
def jsLeZero : JSVal → Bool
  | .num (.fin q) => q ≤ 0
  | .num .negInf => true
  | .num .posInf => false
  | .num .nan => false
  | .str _ => false
  | .undef => false

def isHexDigit (c : Char) : Bool :=
  (('0' ≤ c) && (c ≤ '9')) || (('a' ≤ c) && (c ≤ 'f')) || (('A' ≤ c) && (c ≤ 'F'))

/-- mongoose.Types.ObjectId.isValid on a string (line 95): true for a
24-character hexadecimal string, and for any 12-character string (treated
as 12 raw bytes). -/
def isValidObjectId (s : String) : Bool :=
  (s.length == 24 && s.toList.all isHexDigit) || s.length == 12

/-- The JavaScript comparison sender.balance < amount (line 111); the stored
balance is a finite number. A finite value is below positive infinity, NaN
compares false, and the non-number cases are unreachable (validation has
already required a number). -/
def jsLtAmount (b : ℚ) : JSVal → Bool
  | .num (.fin q) => b < q
  | .num .posInf => true
  | .num .negInf => false
  | .num .nan => false
  | .str _ => false
  | .undef => false

/-- The rational value of a finite numeric amount. Only applied on the path
after the funds check (lines 121-122), where the amount is necessarily a
finite number, so the default 0 is never produced there. -/
def finVal : JSVal → ℚ
  | .num (.fin q) => q
  | _ => 0

/-- An amount that passes all three numeric validation checks of lines 86-91:
a finite number strictly above zero, or positive infinity. -/
def isPositiveAmount : JSVal → Bool
  | .num (.fin q) => 0 < q
  | .num .posInf => true
  | _ => false

/-- An Account document as the schema on lines 22-33 stores it: a name and a
numeric balance. The schema has no version or revision field. -/
structure Account where
  name : String
  balance : ℚ
deriving DecidableEq, Repr

/-- The accounts collection: an association list from id to document. -/
abbrev Store := List (String × Account)

/-- Account.findById (lines 100-101): the first binding of the id, if any. -/
def findById (db : Store) (id : String) : Option Account :=
  (db.find? (fun p => p.1 == id)).map (fun p => p.2)

/-- document.save (lines 125-126): an unconditional overwrite of the stored
document with the in-memory one. There is no version comparison: the write
happens regardless of any mutation since the document was read. -/
def saveAccount (db : Store) (id : String) (a : Account) : Store :=
  db.map (fun p => if p.1 = id then (id, a) else p)

/-- The ids present in the store, in order. -/
def keys (db : Store) : List String := db.map Prod.fst

/-- The sum of all stored balances. -/
def sumBalances (db : Store) : ℚ := (db.map (fun p => p.2.balance)).sum

/-- Every stored balance is non-negative (schema constraint min 0, line 30). -/
abbrev nonNegStore (db : Store) : Prop := ∀ p ∈ db, 0 ≤ p.2.balance

/-- The four 400-responses of the validation block, lines 86-97, in source
order. -/
inductive ValidationError where
  | missingFields
  | nonPositiveAmount
  | selfTransfer
  | invalidIdFormat
deriving DecidableEq, Repr

/-- Which account a 404 names: line 104 names the sender, line 107 the
receiver. -/
inductive Side where
  | sender
  | receiver
deriving DecidableEq, Repr

/-- The response of POST /transfer. -/
inductive Resp where
  | badRequest (e : ValidationError)
  | notFound (side : Side)
  | insufficientFunds (currentBalance : ℚ) (amountToTransfer : JSVal)
  | success (senderNewBalance receiverNewBalance : ℚ)
  | serverError
deriving DecidableEq, Repr

/-- The HTTP status of each response. -/
def Resp.status : Resp → Nat
  | .badRequest _ => 400
  | .notFound _ => 404
  | .insufficientFunds _ _ => 400
  | .success _ _ => 200
  | .serverError => 500

/-- The request body of POST /transfer (line 83). -/
structure Request where
  fromAccountId : String
  toAccountId : String
  amount : JSVal
deriving DecidableEq, Repr

/-- The validation block, lines 86-97, returning the first violation found.
It performs no store access. -/
def validate (r : Request) : Option ValidationError :=
  if jsFalsyId r.fromAccountId || jsFalsyId r.toAccountId || jsFalsy r.amount then
    some .missingFields
  else if !(isNumberVal r.amount) || jsLeZero r.amount then
    some .nonPositiveAmount
  else if r.fromAccountId == r.toAccountId then
    some .selfTransfer
  else if !(isValidObjectId r.fromAccountId) || !(isValidObjectId r.toAccountId) then
    some .invalidIdFormat
  else
    none

/-- A store operation performed by the handler, for stating which documents
are read and written. -/
inductive StoreOp where
  | read (id : String)
  | write (id : String)
deriving DecidableEq, Repr

/-- POST /transfer, lines 81-139. The two Booleans inject the outcome of the
two save calls: a failed save throws (caught on line 135, answered with
HTTP 500) and performs no write. Returns the response, the resulting store
and the list of store operations performed. -/
def transfer (db : Store) (r : Request) (firstSaveOk secondSaveOk : Bool) :
    Resp × Store × List StoreOp :=
  match validate r with
  | some e => (.badRequest e, db, [])
  | none =>
    let ops : List StoreOp := [.read r.fromAccountId, .read r.toAccountId]
    match findById db r.fromAccountId, findById db r.toAccountId with
    | none, _ => (.notFound .sender, db, ops)
    | some _, none => (.notFound .receiver, db, ops)
    | some sender, some receiver =>
      if jsLtAmount sender.balance r.amount then
        (.insufficientFunds sender.balance r.amount, db, ops)
      else
        let amt := finVal r.amount
        let sender2 : Account := { sender with balance := sender.balance - amt }
        let receiver2 : Account := { receiver with balance := receiver.balance + amt }
        if firstSaveOk then
          let db1 := saveAccount db r.fromAccountId sender2
          if secondSaveOk then
            (.success sender2.balance receiver2.balance,
              saveAccount db1 r.toAccountId receiver2,
              ops ++ [.write r.fromAccountId, .write r.toAccountId])
          else
            (.serverError, db1, ops ++ [.write r.fromAccountId])
        else
          (.serverError, db, ops)

/-- A sequence of transfers run back to back, every save succeeding. -/
def runTransfers (db : Store) : List Request → Store
  | [] => db
  | r :: rs => runTransfers (transfer db r true true).2.1 rs

/-- n pairs of opposite transfers of the same amount between the same two
accounts: A to B, then B to A, repeated. -/
def altReqs (A B : String) (a : ℚ) : Nat → List Request
  | 0 => []
  | n + 1 =>
      ⟨A, B, .num (.fin a)⟩ :: ⟨B, A, .num (.fin a)⟩ :: altReqs A B a n

/-!
Interleaving semantics for concurrent requests. Node runs each request
handler on the shared event loop; control can change hands at every await
(the two findById reads and the two save writes, lines 100-101 and
125-126), while the database applies each individual read or write
atomically. A handler in flight is therefore a small state machine whose
steps are its four store operations; the in-memory checks and the balance
arithmetic of lines 103-122 run synchronously with the adjacent store
operation. The phases model an already validated request whose amount is a
finite positive number (validation is synchronous and touches no shared
state, so it commutes with any interleaving).
-/

/-- The phase of one in-flight transfer handler: about to read the sender;
holding the sender copy, about to read the receiver; holding both copies,
about to check funds and save the debited sender; sender saved, about to
save the credited receiver copy; finished; or aborted (missing account or
insufficient funds). -/
inductive TPhase where
  | ready
  | gotSender (s : Account)
  | gotBoth (s r : Account)
  | debited (r2 : Account)
  | finished
  | aborted
deriving DecidableEq, Repr

/-- One in-flight transfer request: its parameters and its current phase. -/
structure TransferThread where
  fromId : String
  toId : String
  amount : ℚ
  phase : TPhase
deriving DecidableEq, Repr

/-- One step of one handler against the shared store: exactly the next store
operation of lines 100, 101, 125, 126, with the synchronous code around it. -/
def stepThread (db : Store) (t : TransferThread) : Store × TransferThread :=
  match t.phase with
  | .ready =>
    match findById db t.fromId with
    | none => (db, { t with phase := .aborted })
    | some s => (db, { t with phase := .gotSender s })
  | .gotSender s =>
    match findById db t.toId with
    | none => (db, { t with phase := .aborted })
    | some r => (db, { t with phase := .gotBoth s r })
  | .gotBoth s r =>
    if s.balance < t.amount then
      (db, { t with phase := .aborted })
    else
      (saveAccount db t.fromId { s with balance := s.balance - t.amount },
        { t with phase := .debited { r with balance := r.balance + t.amount } })
  | .debited r2 =>
    (saveAccount db t.toId r2, { t with phase := .finished })
  | .finished => (db, t)
  | .aborted => (db, t)

/-- Run a schedule: at each scheduling point the named thread performs its
next step. Indices out of range are skipped. -/
def runSched : Store → List TransferThread → List Nat → Store × List TransferThread
  | db, ts, [] => (db, ts)
  | db, ts, i :: rest =>
    match ts[i]? with
    | none => runSched db ts rest
    | some t =>
      let p := stepThread db t
      runSched p.1 (ts.set i p.2) rest

/-- A sequence of transfers with per-transfer save failure injection. -/
def runTransfersWithFailures (db : Store) : List (Request × Bool × Bool) → Store
  | [] => db
  | s :: rest => runTransfersWithFailures (transfer db s.1 s.2.1 s.2.2).2.1 rest

/-- A well-formed 24-character hexadecimal account id, for concrete runs. -/
def accAid : String := "aaaaaaaaaaaaaaaaaaaaaaaa"

/-- A second well-formed account id. -/
def accBid : String := "bbbbbbbbbbbbbbbbbbbbbbbb"

/-- A third well-formed account id, absent from the sample store. -/
def accCid : String := "cccccccccccccccccccccccc"

/-- The sample store that POST /setup-accounts seeds (lines 49-52): UserA
with balance 1000 and UserB with balance 500. -/
def sampleDb : Store := [(accAid, ⟨"UserA", 1000⟩), (accBid, ⟨"UserB", 500⟩)]

/-! Basic lemmas about the store primitives. -/

theorem mem_of_findById {db : Store} {id : String} {a : Account}
    (h : findById db id = some a) : (id, a) ∈ db := by
  induction db with
  | nil => simp [findById] at h
  | cons p rest ih =>
    by_cases hp : p.1 == id
    · simp [findById, List.find?, hp] at h
      rcases p with ⟨k, b⟩
      simp at hp
      simp [hp, ← h]
    · simp only [findById, List.find?, hp] at h
      exact List.mem_cons_of_mem _ (ih h)

theorem findById_saveAccount_ne {db : Store} {id j : String} (a : Account)
    (h : j ≠ id) : findById (saveAccount db id a) j = findById db j := by
  induction db with
  | nil => rfl
  | cons p rest ih =>
    by_cases hp : p.1 = id
    · have hj : ¬((id : String) == j) = true := by simpa using Ne.symm h
      simp [saveAccount, findById, List.find?, hp, hj] at *
      simpa [findById, saveAccount] using ih
    · simp only [saveAccount, List.map_cons, if_neg hp]
      by_cases hq : p.1 == j
      · simp [findById, List.find?, hq]
      · simp only [findById, List.find?, hq]
        simpa [findById, saveAccount] using ih

theorem findById_saveAccount_self {db : Store} {id : String} (a : Account)
    (h : (findById db id).isSome) : findById (saveAccount db id a) id = some a := by
  induction db with
  | nil => simp [findById] at h
  | cons p rest ih =>
    by_cases hp : p.1 = id
    · simp [saveAccount, findById, List.find?, hp]
    · have hp2 : ¬(p.1 == id) = true := by simpa using hp
      simp only [findById, List.find?, hp2] at h
      simp only [saveAccount, List.map_cons, if_neg hp, findById, List.find?, hp2]
      simpa [findById, saveAccount] using ih h

theorem keys_saveAccount (db : Store) (id : String) (a : Account) :
    keys (saveAccount db id a) = keys db := by
  induction db with
  | nil => rfl
  | cons p rest ih =>
    by_cases hp : p.1 = id
    · simpa [keys, saveAccount, hp] using ih
    · simpa [keys, saveAccount, hp] using ih

theorem saveAccount_saveAccount (db : Store) (id : String) (a b : Account) :
    saveAccount (saveAccount db id a) id b = saveAccount db id b := by
  induction db with
  | nil => rfl
  | cons p rest ih =>
    by_cases hp : p.1 = id
    · simpa [saveAccount, hp] using ih
    · simpa [saveAccount, hp] using ih

theorem saveAccount_comm (db : Store) {i j : String} (a b : Account)
    (h : i ≠ j) : saveAccount (saveAccount db i a) j b
      = saveAccount (saveAccount db j b) i a := by
  induction db with
  | nil => rfl
  | cons p rest ih =>
    by_cases hpi : p.1 = i
    · simp [saveAccount, hpi, h, Ne.symm h] at *
      exact ih
    · by_cases hpj : p.1 = j
      · simp [saveAccount, hpi, hpj, h, Ne.symm h] at *
        exact ih
      · simp [saveAccount, hpi, hpj] at *
        exact ih

theorem saveAccount_of_not_mem {db : Store} {id : String} (a : Account)
    (h : ∀ p ∈ db, p.1 ≠ id) : saveAccount db id a = db := by
  induction db with
  | nil => rfl
  | cons p rest ih =>
    have hp : p.1 ≠ id := h p (List.mem_cons_self p rest)
    simp only [saveAccount, List.map_cons, if_neg hp]
    have : saveAccount rest id a = rest :=
      ih (fun q hq => h q (List.mem_cons_of_mem p hq))
    simpa [saveAccount] using this

theorem saveAccount_restore {db : Store} {id : String} {a : Account}
    (hnd : (keys db).Nodup) (h : findById db id = some a) :
    saveAccount db id a = db := by
  induction db with
  | nil => rfl
  | cons p rest ih =>
    simp only [keys, List.map_cons, List.nodup_cons] at hnd
    by_cases hp : p.1 = id
    · have hfind : (p.1 == id) = true := by simpa using hp
      simp only [findById, List.find?, hfind, Option.map_some] at h
      have hrest : ∀ q ∈ rest, q.1 ≠ id := by
        intro q hq hqid
        apply hnd.1
        rw [hp, ← hqid]
        exact List.mem_map_of_mem Prod.fst hq
      have h2 : ((id, a) : String × Account) = p := by
        rcases p with ⟨k, b⟩; simp_all
      have h3 : saveAccount rest id a = rest := saveAccount_of_not_mem a hrest
      simp only [saveAccount, List.map_cons, if_pos hp]
      exact List.cons_eq_cons.mpr ⟨h2, by simpa [saveAccount] using h3⟩
    · have hfind : ¬(p.1 == id) = true := by simpa using hp
      simp only [findById, List.find?, hfind] at h
      simp only [saveAccount, List.map_cons, if_neg hp]
      have := ih hnd.2 (by simpa [findById] using h)
      simpa [saveAccount] using this

theorem sumBalances_saveAccount {db : Store} {id : String} {old : Account}
    (a : Account) (hnd : (keys db).Nodup) (h : findById db id = some old) :
    sumBalances (saveAccount db id a) = sumBalances db - old.balance + a.balance := by
  induction db with
  | nil => simp [findById] at h
  | cons p rest ih =>
    simp only [keys, List.map_cons, List.nodup_cons] at hnd
    by_cases hp : p.1 = id
    · have hfind : (p.1 == id) = true := by simpa using hp
      simp only [findById, List.find?, hfind, Option.map_some] at h
      have hold : p.2 = old := by simpa using h
      have hrest : ∀ q ∈ rest, q.1 ≠ id := by
        intro q hq hqid
        apply hnd.1
        rw [hp, ← hqid]
        exact List.mem_map_of_mem Prod.fst hq
      have hsave : saveAccount rest id a = rest := saveAccount_of_not_mem a hrest
      simp only [saveAccount, List.map_cons, if_pos hp]
      have hmap : (rest.map (fun q => if q.1 = id then (id, a) else q)) = rest := by
        simpa [saveAccount] using hsave
      simp [sumBalances, hmap, ← hold]
      ring
    · have hfind : ¬(p.1 == id) = true := by simpa using hp
      simp only [findById, List.find?, hfind] at h
      have := ih hnd.2 (by simpa [findById] using h)
      simp only [saveAccount, List.map_cons, if_neg hp]
      simp only [sumBalances, List.map_cons, List.sum_cons] at *
      rw [show (rest.map (fun q => if q.1 = id then (id, a) else q))
          = saveAccount rest id a from rfl, show
          ((saveAccount rest id a).map (fun q => q.2.balance)).sum
            = sumBalances (saveAccount rest id a) from rfl] at *
      rw [this]
      ring

theorem isPositiveAmount_iff (a : JSVal) :
    isPositiveAmount a = true ↔
      (jsFalsy a = false ∧ isNumberVal a = true ∧ jsLeZero a = false) := by
  cases a with
  | num n =>
    cases n with
    | fin q =>
      simp only [isPositiveAmount, jsFalsy, isNumberVal, jsLeZero, decide_eq_true_eq,
        decide_eq_false_iff_not, true_and]
      constructor
      · intro h
        exact ⟨ne_of_gt h, not_le.mpr h⟩
      · rintro ⟨-, h⟩
        exact not_le.mp h
    | posInf => simp [isPositiveAmount, jsFalsy, isNumberVal, jsLeZero]
    | negInf => simp [isPositiveAmount, jsFalsy, isNumberVal, jsLeZero]
    | nan => simp [isPositiveAmount, jsFalsy, isNumberVal, jsLeZero]
  | str s => simp [isPositiveAmount, jsFalsy, isNumberVal, jsLeZero]
  | undef => simp [isPositiveAmount, jsFalsy, isNumberVal, jsLeZero]

theorem validate_none_iff (r : Request) :
    validate r = none ↔
      jsFalsyId r.fromAccountId = false ∧ jsFalsyId r.toAccountId = false ∧
      isPositiveAmount r.amount = true ∧ r.fromAccountId ≠ r.toAccountId ∧
      isValidObjectId r.fromAccountId = true ∧ isValidObjectId r.toAccountId = true := by
  rcases r with ⟨f, t, a⟩
  simp only [isPositiveAmount_iff, validate]
  split_ifs <;> simp_all <;> intros <;> simp_all

theorem validate_none_ne {r : Request} (hv : validate r = none) :
    r.fromAccountId ≠ r.toAccountId :=
  ((validate_none_iff r).1 hv).2.2.2.1

theorem amount_shape_of_funds {r : Request} {b : ℚ}
    (hv : validate r = none) (hf : jsLtAmount b r.amount = false) :
    ∃ q : ℚ, r.amount = .num (.fin q) ∧ 0 < q ∧ q ≤ b := by
  have hpos := ((validate_none_iff r).1 hv).2.2.1
  cases ha : r.amount with
  | num n =>
    cases n with
    | fin q =>
      refine ⟨q, rfl, ?_, ?_⟩
      · rw [ha] at hpos
        simpa [isPositiveAmount] using hpos
      · rw [ha] at hf
        simpa [jsLtAmount, not_lt] using hf
    | posInf => rw [ha] at hf; simp [jsLtAmount] at hf
    | negInf => rw [ha] at hpos; simp [isPositiveAmount] at hpos
    | nan => rw [ha] at hpos; simp [isPositiveAmount] at hpos
  | str s => rw [ha] at hpos; simp [isPositiveAmount] at hpos
  | undef => rw [ha] at hpos; simp [isPositiveAmount] at hpos

/-! Path characterizations of the transfer handler. -/

theorem transfer_validate_some {db : Store} {r : Request} {e : ValidationError}
    (s1 s2 : Bool) (hv : validate r = some e) :
    transfer db r s1 s2 = (.badRequest e, db, []) := by
  simp [transfer, hv]

theorem transfer_notFound_sender {db : Store} {r : Request} (s1 s2 : Bool)
    (hv : validate r = none) (hs : findById db r.fromAccountId = none) :
    transfer db r s1 s2 =
      (.notFound .sender, db, [.read r.fromAccountId, .read r.toAccountId]) := by
  simp [transfer, hv, hs]

theorem transfer_notFound_receiver {db : Store} {r : Request} {sender : Account}
    (s1 s2 : Bool) (hv : validate r = none)
    (hs : findById db r.fromAccountId = some sender)
    (hr : findById db r.toAccountId = none) :
    transfer db r s1 s2 =
      (.notFound .receiver, db, [.read r.fromAccountId, .read r.toAccountId]) := by
  simp [transfer, hv, hs, hr]

theorem transfer_insufficient {db : Store} {r : Request} {sender receiver : Account}
    (s1 s2 : Bool) (hv : validate r = none)
    (hs : findById db r.fromAccountId = some sender)
    (hr : findById db r.toAccountId = some receiver)
    (hf : jsLtAmount sender.balance r.amount = true) :
    transfer db r s1 s2 =
      (.insufficientFunds sender.balance r.amount, db,
        [.read r.fromAccountId, .read r.toAccountId]) := by
  simp [transfer, hv, hs, hr, hf]

theorem transfer_success_eq {db : Store} {r : Request} {sender receiver : Account}
    (hv : validate r = none)
    (hs : findById db r.fromAccountId = some sender)
    (hr : findById db r.toAccountId = some receiver)
    (hf : jsLtAmount sender.balance r.amount = false) :
    transfer db r true true =
      (.success (sender.balance - finVal r.amount) (receiver.balance + finVal r.amount),
        saveAccount (saveAccount db r.fromAccountId
            { sender with balance := sender.balance - finVal r.amount })
          r.toAccountId { receiver with balance := receiver.balance + finVal r.amount },
        [.read r.fromAccountId, .read r.toAccountId,
          .write r.fromAccountId, .write r.toAccountId]) := by
  simp [transfer, hv, hs, hr, hf]

theorem transfer_secondSaveFail {db : Store} {r : Request} {sender receiver : Account}
    (hv : validate r = none)
    (hs : findById db r.fromAccountId = some sender)
    (hr : findById db r.toAccountId = some receiver)
    (hf : jsLtAmount sender.balance r.amount = false) :
    transfer db r true false =
      (.serverError,
        saveAccount db r.fromAccountId
          { sender with balance := sender.balance - finVal r.amount },
        [.read r.fromAccountId, .read r.toAccountId, .write r.fromAccountId]) := by
  simp [transfer, hv, hs, hr, hf]

theorem transfer_firstSaveFail {db : Store} {r : Request} {sender receiver : Account}
    (s2 : Bool) (hv : validate r = none)
    (hs : findById db r.fromAccountId = some sender)
    (hr : findById db r.toAccountId = some receiver)
    (hf : jsLtAmount sender.balance r.amount = false) :
    transfer db r false s2 =
      (.serverError, db, [.read r.fromAccountId, .read r.toAccountId]) := by
  simp [transfer, hv, hs, hr, hf]

theorem nonNeg_saveAccount {db : Store} {id : String} {a : Account}
    (hdb : nonNegStore db) (ha : 0 ≤ a.balance) :
    nonNegStore (saveAccount db id a) := by
  intro p hp
  simp only [saveAccount, List.mem_map] at hp
  obtain ⟨q, hq, hqe⟩ := hp
  by_cases h : q.1 = id
  · simp only [if_pos h] at hqe
    rw [← hqe]
    exact ha
  · simp only [if_neg h] at hqe
    rw [← hqe]
    exact hdb q hq

theorem not_mem_of_findById_none {db : Store} {id : String}
    (h : findById db id = none) : ∀ p ∈ db, p.1 ≠ id := by
  induction db with
  | nil => simp
  | cons p rest ih =>
    by_cases hp : p.1 == id
    · simp [findById, List.find?, hp] at h
    · simp only [findById, List.find?, hp] at h
      intro q hq
      rcases List.mem_cons.mp hq with hq | hq
      · subst hq
        simpa using hp
      · exact ih h q hq

theorem validObjectId_ne_empty {s : String} (h : isValidObjectId s = true) :
    s ≠ "" := by
  intro he
  subst he
  have : isValidObjectId "" = false := by decide
  rw [this] at h
  exact Bool.false_ne_true h

/-- A single transfer with both saves succeeding preserves the sum of all
balances and the set of stored ids, whatever its outcome. -/
theorem transfer_ok_invariants (db : Store) (r : Request)
    (hnd : (keys db).Nodup) :
    sumBalances (transfer db r true true).2.1 = sumBalances db ∧
    keys (transfer db r true true).2.1 = keys db := by
  cases hv : validate r with
  | some e => simp [transfer_validate_some _ _ hv]
  | none =>
    cases hs : findById db r.fromAccountId with
    | none => simp [transfer_notFound_sender _ _ hv hs]
    | some sender =>
      cases hr : findById db r.toAccountId with
      | none => simp [transfer_notFound_receiver _ _ hv hs hr]
      | some receiver =>
        cases hf : jsLtAmount sender.balance r.amount with
        | true => simp [transfer_insufficient _ _ hv hs hr hf]
        | false =>
          rw [transfer_success_eq hv hs hr hf]
          have hAB : r.fromAccountId ≠ r.toAccountId := validate_none_ne hv
          have hrB : findById (saveAccount db r.fromAccountId
              { sender with balance := sender.balance - finVal r.amount })
              r.toAccountId = some receiver := by
            rw [findById_saveAccount_ne _ (Ne.symm hAB)]
            exact hr
          have hnd1 : (keys (saveAccount db r.fromAccountId
              { sender with balance := sender.balance - finVal r.amount })).Nodup := by
            rw [keys_saveAccount]
            exact hnd
          constructor
          · rw [sumBalances_saveAccount _ hnd1 hrB, sumBalances_saveAccount _ hnd hs]
            simp only
            ring
          · rw [keys_saveAccount, keys_saveAccount]

theorem runTransfers_invariants (reqs : List Request) : ∀ db : Store,
    (keys db).Nodup →
    sumBalances (runTransfers db reqs) = sumBalances db ∧
    keys (runTransfers db reqs) = keys db := by
  induction reqs with
  | nil => intro db _; exact ⟨rfl, rfl⟩
  | cons r rs ih =>
    intro db hnd
    have h1 := transfer_ok_invariants db r hnd
    have h2 := ih (transfer db r true true).2.1 (h1.2 ▸ hnd)
    refine ⟨?_, ?_⟩
    · show sumBalances (runTransfers (transfer db r true true).2.1 rs) = sumBalances db
      rw [h2.1, h1.1]
    · show keys (runTransfers (transfer db r true true).2.1 rs) = keys db
      rw [h2.2, h1.2]

/-- Any transfer answered with status 400 or 404 (validation failure, missing
account, insufficient funds) leaves the store untouched. -/
theorem transfer_abort_frame (db : Store) (r : Request) (s1 s2 : Bool)
    (h : (transfer db r s1 s2).1.status = 400 ∨ (transfer db r s1 s2).1.status = 404) :
    (transfer db r s1 s2).2.1 = db := by
  cases hv : validate r with
  | some e => simp [transfer_validate_some _ _ hv]
  | none =>
    cases hs : findById db r.fromAccountId with
    | none => simp [transfer_notFound_sender _ _ hv hs]
    | some sender =>
      cases hr : findById db r.toAccountId with
      | none => simp [transfer_notFound_receiver _ _ hv hs hr]
      | some receiver =>
        cases hf : jsLtAmount sender.balance r.amount with
        | true => simp [transfer_insufficient _ _ hv hs hr hf]
        | false =>
          exfalso
          cases s1 with
          | false =>
            rw [transfer_firstSaveFail _ hv hs hr hf] at h
            simp [Resp.status] at h
          | true =>
            cases s2 with
            | false =>
              rw [transfer_secondSaveFail hv hs hr hf] at h
              simp [Resp.status] at h
            | true =>
              rw [transfer_success_eq hv hs hr hf] at h
              simp [Resp.status] at h

/-- A single transfer, successful or failed in any way, preserves
non-negativity of every stored balance. -/
theorem transfer_preserves_nonNeg (db : Store) (r : Request) (s1 s2 : Bool)
    (hdb : nonNegStore db) : nonNegStore (transfer db r s1 s2).2.1 := by
  cases hv : validate r with
  | some e => rw [transfer_validate_some _ _ hv]; exact hdb
  | none =>
    cases hs : findById db r.fromAccountId with
    | none => rw [transfer_notFound_sender _ _ hv hs]; exact hdb
    | some sender =>
      cases hr : findById db r.toAccountId with
      | none => rw [transfer_notFound_receiver _ _ hv hs hr]; exact hdb
      | some receiver =>
        cases hf : jsLtAmount sender.balance r.amount with
        | true => rw [transfer_insufficient _ _ hv hs hr hf]; exact hdb
        | false =>
          obtain ⟨q, ha, hq0, hqle⟩ := amount_shape_of_funds hv hf
          have hfin : finVal r.amount = q := by rw [ha]; rfl
          have hsender : (0 : ℚ) ≤ sender.balance - finVal r.amount := by
            rw [hfin]
            linarith
          have hreceiver : (0 : ℚ) ≤ receiver.balance + finVal r.amount := by
            have h0 : (0 : ℚ) ≤ receiver.balance := hdb _ (mem_of_findById hr)
            rw [hfin]
            linarith
          cases s1 with
          | false => rw [transfer_firstSaveFail _ hv hs hr hf]; exact hdb
          | true =>
            cases s2 with
            | false =>
              rw [transfer_secondSaveFail hv hs hr hf]
              exact nonNeg_saveAccount hdb hsender
            | true =>
              rw [transfer_success_eq hv hs hr hf]
              exact nonNeg_saveAccount (nonNeg_saveAccount hdb hsender) hreceiver

/-- One serial round trip: a transfer A to B of amount a followed by a
transfer B to A of the same amount, both fully saved, puts the store back
exactly where it started. -/
theorem transfer_pair_restores {db : Store} {A B : String} {a : ℚ}
    {accA accB : Account} (hnd : (keys db).Nodup)
    (hA : isValidObjectId A = true) (hB : isValidObjectId B = true)
    (hAB : A ≠ B) (ha : 0 < a)
    (hfA : findById db A = some accA) (hfB : findById db B = some accB)
    (haA : a ≤ accA.balance) (hbB : 0 ≤ accB.balance) :
    (transfer (transfer db ⟨A, B, .num (.fin a)⟩ true true).2.1
      ⟨B, A, .num (.fin a)⟩ true true).2.1 = db := by
  have hv1 : validate ⟨A, B, .num (.fin a)⟩ = none := by
    rw [validate_none_iff]
    refine ⟨?_, ?_, ?_, hAB, hA, hB⟩
    · simpa [jsFalsyId] using validObjectId_ne_empty hA
    · simpa [jsFalsyId] using validObjectId_ne_empty hB
    · simpa [isPositiveAmount] using ha
  have hv2 : validate ⟨B, A, .num (.fin a)⟩ = none := by
    rw [validate_none_iff]
    refine ⟨?_, ?_, ?_, Ne.symm hAB, hB, hA⟩
    · simpa [jsFalsyId] using validObjectId_ne_empty hB
    · simpa [jsFalsyId] using validObjectId_ne_empty hA
    · simpa [isPositiveAmount] using ha
  have hf1 : jsLtAmount accA.balance (JSVal.num (JSNum.fin a)) = false := by
    simp [jsLtAmount, not_lt.mpr haA]
  rw [transfer_success_eq hv1 hfA hfB hf1]
  simp only
  set sA2 : Account := { accA with balance := accA.balance - finVal (.num (.fin a)) } with hsA2
  set rB2 : Account := { accB with balance := accB.balance + finVal (.num (.fin a)) } with hrB2
  have hfinv : finVal (JSVal.num (JSNum.fin a)) = a := rfl
  have hdb1A : findById (saveAccount db A sA2) A = some sA2 :=
    findById_saveAccount_self _ (by rw [hfA]; rfl)
  have hdb1B : findById (saveAccount db A sA2) B = findById db B :=
    findById_saveAccount_ne _ (Ne.symm hAB)
  have hdb2B : findById (saveAccount (saveAccount db A sA2) B rB2) B = some rB2 :=
    findById_saveAccount_self _ (by rw [hdb1B, hfB]; rfl)
  have hdb2A : findById (saveAccount (saveAccount db A sA2) B rB2) A = some sA2 := by
    rw [findById_saveAccount_ne _ hAB, hdb1A]
  have hf2 : jsLtAmount rB2.balance (JSVal.num (JSNum.fin a)) = false := by
    have : ¬(rB2.balance < a) := by
      rw [hrB2]
      simp only [hfinv]
      linarith
    simp [jsLtAmount, this]
  rw [transfer_success_eq hv2 hdb2B hdb2A hf2]
  simp only
  have hback1 : ({ rB2 with balance := rB2.balance - finVal (.num (.fin a)) } : Account)
      = accB := by
    rw [hrB2]
    simp only [hfinv]
    rw [show accB.balance + a - a = accB.balance from by ring]
  have hback2 : ({ sA2 with balance := sA2.balance + finVal (.num (.fin a)) } : Account)
      = accA := by
    rw [hsA2]
    simp only [hfinv]
    rw [show accA.balance - a + a = accA.balance from by ring]
  rw [hback1, hback2]
  rw [saveAccount_saveAccount]
  rw [saveAccount_comm _ _ _ (Ne.symm hAB)]
  rw [saveAccount_saveAccount]
  rw [saveAccount_restore hnd hfA]
  exact saveAccount_restore hnd hfB

/-- Serial execution of any number of opposite equal pairs restores the
store exactly. -/
theorem runTransfers_altReqs {db : Store} {A B : String} {a : ℚ}
    {accA accB : Account} (n : Nat) (hnd : (keys db).Nodup)
    (hA : isValidObjectId A = true) (hB : isValidObjectId B = true)
    (hAB : A ≠ B) (ha : 0 < a)
    (hfA : findById db A = some accA) (hfB : findById db B = some accB)
    (haA : a ≤ accA.balance) (hbB : 0 ≤ accB.balance) :
    runTransfers db (altReqs A B a n) = db := by
  induction n with
  | zero => rfl
  | succ m ih =>
    show runTransfers
      (transfer (transfer db ⟨A, B, .num (.fin a)⟩ true true).2.1
        ⟨B, A, .num (.fin a)⟩ true true).2.1 (altReqs A B a m) = db
    rw [transfer_pair_restores hnd hA hB hAB ha hfA hfB haA hbB]
    exact ih

/-! Claim-level results. -/

/-- Claim C1 counterexample: a transfer of 100 from UserA to UserB whose
second save fails is aborted with HTTP 500, yet its effect is observable:
the sum of all balances drops from 1500 to 1400, so the aborted transfer is
not atomic. -/
theorem conservation_counterexample :
    (transfer sampleDb ⟨accAid, accBid, .num (.fin 100)⟩ true false).1 = .serverError ∧
    sumBalances (transfer sampleDb ⟨accAid, accBid, .num (.fin 100)⟩ true false).2.1 = 1400 ∧
    sumBalances sampleDb = 1500 ∧
    sumBalances (transfer sampleDb ⟨accAid, accBid, .num (.fin 100)⟩ true false).2.1
      ≠ sumBalances sampleDb := by
  have h : transfer sampleDb ⟨accAid, accBid, .num (.fin 100)⟩ true false
      = (.serverError,
          [(accAid, ⟨"UserA", 1000 - 100⟩), (accBid, ⟨"UserB", 500⟩)],
          [.read accAid, .read accBid, .write accAid]) := rfl
  have h1 : sumBalances (transfer sampleDb ⟨accAid, accBid, .num (.fin 100)⟩ true false).2.1
      = 1400 := by
    rw [h]
    simp [sumBalances]
    norm_num
  have h2 : sumBalances sampleDb = 1500 := by
    simp [sumBalances, sampleDb]
    norm_num
  refine ⟨by rw [h], h1, h2, ?_⟩
  rw [h1, h2]
  norm_num

/-- Claim C1 (amended): with every save succeeding, any sequence of
transfers — each one successful or aborted — preserves the sum of all
balances of a duplicate-free store; and any transfer answered 400 or 404
(validation failure, missing account, insufficient funds) leaves the store
untouched. The original claim's clause that every aborted transfer has no
observable effect fails when the second save fails, see the
counterexample. -/
theorem conservation_amended :
    (∀ (db : Store) (reqs : List Request), (keys db).Nodup →
      sumBalances (runTransfers db reqs) = sumBalances db) ∧
    (∀ (db : Store) (r : Request) (s1 s2 : Bool),
      (transfer db r s1 s2).1.status = 400 ∨ (transfer db r s1 s2).1.status = 404 →
      (transfer db r s1 s2).2.1 = db) :=
  ⟨fun db reqs hnd => (runTransfers_invariants reqs db hnd).1,
   transfer_abort_frame⟩

/-- Closed instance of the amended conservation claim on the sample store. -/
theorem conservation_witness :
    sumBalances (runTransfers sampleDb
      [⟨accAid, accBid, .num (.fin 300)⟩, ⟨accBid, accAid, .num (.fin 800)⟩])
      = sumBalances sampleDb ∧
    (transfer sampleDb ⟨accBid, accAid, .num (.fin 600)⟩ true true).2.1 = sampleDb :=
  ⟨conservation_amended.1 sampleDb _ (by decide),
   conservation_amended.2 sampleDb ⟨accBid, accAid, .num (.fin 600)⟩ true true
     (Or.inl (by decide))⟩

/-- Claim C2 counterexample: after the transfer of 100 from UserA whose
first save succeeded and second save failed, the sender reads back at
balance 900, not its pre-transfer 1000: the debit is left in place with no
matching credit and no compensation. -/
theorem atomicity_counterexample :
    (transfer sampleDb ⟨accAid, accBid, .num (.fin 100)⟩ true false).1 = .serverError ∧
    findById (transfer sampleDb ⟨accAid, accBid, .num (.fin 100)⟩ true false).2.1 accAid
      = some ⟨"UserA", 900⟩ ∧
    findById sampleDb accAid = some ⟨"UserA", 1000⟩ := by
  have h : transfer sampleDb ⟨accAid, accBid, .num (.fin 100)⟩ true false
      = (.serverError,
          [(accAid, ⟨"UserA", 1000 - 100⟩), (accBid, ⟨"UserB", 500⟩)],
          [.read accAid, .read accBid, .write accAid]) := rfl
  have h2 : (transfer sampleDb ⟨accAid, accBid, .num (.fin 100)⟩ true false).2.1
      = [(accAid, ⟨"UserA", 900⟩), (accBid, ⟨"UserB", 500⟩)] := by
    rw [h]
    norm_num
  refine ⟨by rw [h], ?_, by decide⟩
  rw [h2]
  decide

/-- Claim C2 (amended): when the first write of a transfer succeeds and the
second fails, the handler returns the 500 error with the sender left
debited by the full amount — a value different from its pre-transfer
balance — the receiver and every other account unchanged, and no
compensation is performed. -/
theorem secondSaveFail_leaves_debit {db : Store} {r : Request}
    {sender receiver : Account}
    (hv : validate r = none)
    (hs : findById db r.fromAccountId = some sender)
    (hr : findById db r.toAccountId = some receiver)
    (hf : jsLtAmount sender.balance r.amount = false) :
    (transfer db r true false).1 = .serverError ∧
    findById (transfer db r true false).2.1 r.fromAccountId
      = some { sender with balance := sender.balance - finVal r.amount } ∧
    findById (transfer db r true false).2.1 r.fromAccountId ≠ some sender ∧
    ∀ j, j ≠ r.fromAccountId →
      findById (transfer db r true false).2.1 j = findById db j := by
  obtain ⟨q, ha, hq0, hqle⟩ := amount_shape_of_funds hv hf
  have hfin : finVal r.amount = q := by rw [ha]; rfl
  rw [transfer_secondSaveFail hv hs hr hf]
  have hself : findById (saveAccount db r.fromAccountId
      { sender with balance := sender.balance - finVal r.amount }) r.fromAccountId
      = some { sender with balance := sender.balance - finVal r.amount } :=
    findById_saveAccount_self _ (by rw [hs]; rfl)
  refine ⟨rfl, hself, ?_, ?_⟩
  · rw [hself]
    intro hcontra
    have hacc := Option.some.inj hcontra
    have hb : sender.balance - finVal r.amount = sender.balance :=
      congrArg Account.balance hacc
    rw [hfin] at hb
    linarith
  · intro j hj
    exact findById_saveAccount_ne _ hj

/-- Closed instance of the amended atomicity claim on the sample store. -/
theorem secondSaveFail_witness :
    (transfer sampleDb ⟨accAid, accBid, .num (.fin 100)⟩ true false).1 = .serverError ∧
    findById (transfer sampleDb ⟨accAid, accBid, .num (.fin 100)⟩ true false).2.1 accAid
      ≠ some ⟨"UserA", 1000⟩ ∧
    findById (transfer sampleDb ⟨accAid, accBid, .num (.fin 100)⟩ true false).2.1 accBid
      = findById sampleDb accBid :=
  ⟨(@secondSaveFail_leaves_debit sampleDb ⟨accAid, accBid, .num (.fin 100)⟩
      ⟨"UserA", 1000⟩ ⟨"UserB", 500⟩
      (by decide) (by decide) (by decide) (by decide)).1,
   (@secondSaveFail_leaves_debit sampleDb ⟨accAid, accBid, .num (.fin 100)⟩
      ⟨"UserA", 1000⟩ ⟨"UserB", 500⟩
      (by decide) (by decide) (by decide) (by decide)).2.2.1,
   (@secondSaveFail_leaves_debit sampleDb ⟨accAid, accBid, .num (.fin 100)⟩
      ⟨"UserA", 1000⟩ ⟨"UserB", 500⟩
      (by decide) (by decide) (by decide) (by decide)).2.2.2 accBid (by decide)⟩

/-- Claim C3 counterexample: two concurrent opposite transfers of the same
amount 100 between the two sample accounts, interleaved so that both
handlers read before either writes (the schedule alternates at the await
points of lines 100-101 and 125-126), both run to completion, yet the final
balances are 1100 and 400 instead of the original 1000 and 500: a lost
update. -/
theorem concurrent_pair_counterexample :
    (runSched sampleDb
      [⟨accAid, accBid, 100, .ready⟩, ⟨accBid, accAid, 100, .ready⟩]
      [0, 0, 1, 1, 0, 0, 1, 1]).2
      = [⟨accAid, accBid, 100, .finished⟩, ⟨accBid, accAid, 100, .finished⟩] ∧
    findById (runSched sampleDb
      [⟨accAid, accBid, 100, .ready⟩, ⟨accBid, accAid, 100, .ready⟩]
      [0, 0, 1, 1, 0, 0, 1, 1]).1 accAid = some ⟨"UserA", 1100⟩ ∧
    findById (runSched sampleDb
      [⟨accAid, accBid, 100, .ready⟩, ⟨accBid, accAid, 100, .ready⟩]
      [0, 0, 1, 1, 0, 0, 1, 1]).1 accBid = some ⟨"UserB", 400⟩ ∧
    findById sampleDb accAid = some ⟨"UserA", 1000⟩ ∧
    findById sampleDb accBid = some ⟨"UserB", 500⟩ := by
  have h : (runSched sampleDb
      [⟨accAid, accBid, 100, .ready⟩, ⟨accBid, accAid, 100, .ready⟩]
      [0, 0, 1, 1, 0, 0, 1, 1])
      = ([(accAid, ⟨"UserA", 1000 + 100⟩), (accBid, ⟨"UserB", 500 - 100⟩)],
        [⟨accAid, accBid, 100, .finished⟩, ⟨accBid, accAid, 100, .finished⟩]) := rfl
  have hdb : (runSched sampleDb
      [⟨accAid, accBid, 100, .ready⟩, ⟨accBid, accAid, 100, .ready⟩]
      [0, 0, 1, 1, 0, 0, 1, 1]).1
      = [(accAid, ⟨"UserA", 1100⟩), (accBid, ⟨"UserB", 400⟩)] := by
    rw [h]
    norm_num
  refine ⟨by rw [h], ?_, ?_, by decide, by decide⟩
  · rw [hdb]; decide
  · rw [hdb]; decide

/-- Claim C3 (amended): without any interleaving — each transfer of the
alternating sequence completing both its writes before the next starts, and
every save succeeding — any number of opposite equal-amount pairs between
two distinct existing accounts leaves the whole store, in particular both
balances, exactly at its original value. Under concurrent interleaving the
property fails, see the counterexample. -/
theorem serial_alternating_restores {db : Store} {A B : String} {a : ℚ}
    {accA accB : Account} (n : Nat) (hnd : (keys db).Nodup)
    (hA : isValidObjectId A = true) (hB : isValidObjectId B = true)
    (hAB : A ≠ B) (ha : 0 < a)
    (hfA : findById db A = some accA) (hfB : findById db B = some accB)
    (haA : a ≤ accA.balance) (hbB : 0 ≤ accB.balance) :
    runTransfers db (altReqs A B a n) = db :=
  runTransfers_altReqs n hnd hA hB hAB ha hfA hfB haA hbB

/-- Closed instance of the amended concurrency claim: three serial pairs of
opposite transfers of 100 on the sample store restore it exactly. -/
theorem serial_alternating_witness :
    runTransfers sampleDb (altReqs accAid accBid 100 3) = sampleDb :=
  @serial_alternating_restores sampleDb accAid accBid 100 ⟨"UserA", 1000⟩
    ⟨"UserB", 500⟩ 3
    (by decide) (by decide) (by decide) (by decide) (by decide)
    (by decide) (by decide) (by decide) (by decide)

/-- Claim C4: starting from any store whose balances are all non-negative,
any sequence of transfers — with any pattern of save successes and
failures — leaves every balance non-negative; no transfer ever writes a
negative balance. -/
theorem transfers_preserve_nonNegativity (db : Store)
    (steps : List (Request × Bool × Bool)) (hdb : nonNegStore db) :
    nonNegStore (runTransfersWithFailures db steps) := by
  induction steps generalizing db with
  | nil => exact hdb
  | cons s rest ih =>
    exact ih (transfer db s.1 s.2.1 s.2.2).2.1
      (transfer_preserves_nonNeg db s.1 s.2.1 s.2.2 hdb)

/-- Closed instance of the non-negativity claim: a run on the sample store
that drains UserB exactly and then injects a second-save failure keeps all
balances non-negative. -/
theorem nonNegativity_witness :
    nonNegStore (runTransfersWithFailures sampleDb
      [(⟨accBid, accAid, .num (.fin 500)⟩, true, true),
        (⟨accAid, accBid, .num (.fin 100)⟩, true, false)]) :=
  transfers_preserve_nonNegativity sampleDb _ (by decide)

/-- Claim C5 counterexample: the save primitive is not a conditional,
version-checked write. Account A is read at balance 1000; a concurrent
mutation stores balance 999; saving the stale in-memory copy at balance 900
neither fails with a conflict nor leaves the store unwritten — it
overwrites the newer state, which a version-checked conditionalSave is
required to refuse. -/
theorem conditionalSave_counterexample :
    findById (saveAccount [(accAid, (⟨"UserA", 1000⟩ : Account))] accAid
      ⟨"UserA", 999⟩) accAid = some ⟨"UserA", 999⟩ ∧
    findById (saveAccount (saveAccount [(accAid, (⟨"UserA", 1000⟩ : Account))] accAid
      ⟨"UserA", 999⟩) accAid ⟨"UserA", 900⟩) accAid = some ⟨"UserA", 900⟩ ∧
    saveAccount (saveAccount [(accAid, (⟨"UserA", 1000⟩ : Account))] accAid
      ⟨"UserA", 999⟩) accAid ⟨"UserA", 900⟩
      ≠ saveAccount [(accAid, (⟨"UserA", 1000⟩ : Account))] accAid ⟨"UserA", 999⟩ := by
  decide

/-- Claim C5 (amended): the account schema stores only a name and a balance,
with no version counter, and the sole mutation primitive of the transfer
path is an unconditional overwrite: whenever the document exists the save
writes the given value regardless of any intervening mutation, and a save
of an absent id writes nothing. -/
theorem saveAccount_unconditional (db : Store) (id : String) (a : Account) :
    ((findById db id).isSome → findById (saveAccount db id a) id = some a) ∧
    (findById db id = none → saveAccount db id a = db) :=
  ⟨fun h => findById_saveAccount_self a h,
   fun h => saveAccount_of_not_mem a (not_mem_of_findById_none h)⟩

/-- Closed instance of the amended save claim on the sample store. -/
theorem saveAccount_unconditional_witness :
    findById (saveAccount sampleDb accAid ⟨"UserA", 1⟩) accAid = some ⟨"UserA", 1⟩ ∧
    saveAccount sampleDb accCid ⟨"UserC", 7⟩ = sampleDb :=
  ⟨(saveAccount_unconditional sampleDb accAid ⟨"UserA", 1⟩).1 (by decide),
   (saveAccount_unconditional sampleDb accCid ⟨"UserC", 7⟩).2 (by decide)⟩

/-- Claim C6: a transfer whose sender exists with balance strictly below the
requested amount, the receiver existing as well, fails with the
insufficient-funds response carrying the current balance and the requested
amount, mutates nothing, and a subsequent read of the sender still returns
the pre-transfer document. -/
theorem insufficientFunds_leaves_state {db : Store} {r : Request}
    {sender : Account} (s1 s2 : Bool) (hv : validate r = none)
    (hs : findById db r.fromAccountId = some sender)
    (hrx : (findById db r.toAccountId).isSome)
    (hlt : jsLtAmount sender.balance r.amount = true) :
    transfer db r s1 s2 = (.insufficientFunds sender.balance r.amount, db,
      [.read r.fromAccountId, .read r.toAccountId]) ∧
    findById (transfer db r s1 s2).2.1 r.fromAccountId = some sender := by
  obtain ⟨receiver, hr⟩ := Option.isSome_iff_exists.mp hrx
  have h := transfer_insufficient s1 s2 hv hs hr hlt
  refine ⟨h, ?_⟩
  rw [h]
  exact hs

/-- Closed instance of the insufficient-funds claim: UserB holds 500 and 600
is requested. -/
theorem insufficientFunds_witness :
    transfer sampleDb ⟨accBid, accAid, .num (.fin 600)⟩ true true
      = (.insufficientFunds 500 (.num (.fin 600)), sampleDb,
        [.read accBid, .read accAid]) ∧
    findById (transfer sampleDb ⟨accBid, accAid, .num (.fin 600)⟩ true true).2.1 accBid
      = some ⟨"UserB", 500⟩ :=
  @insufficientFunds_leaves_state sampleDb ⟨accBid, accAid, .num (.fin 600)⟩
    ⟨"UserB", 500⟩ true true
    (by decide) (by decide) (by decide) (by decide)

/-- Claim C7: a transfer whose source and destination are the same nonempty
id with any positive numeric amount is rejected by the identical-account
validation check with HTTP 400, the store is untouched, and no store
operation — no read and no write — is performed. -/
theorem selfTransfer_rejected (db : Store) (s1 s2 : Bool) (X : String)
    (a : JSVal) (hX : X ≠ "") (ha : isPositiveAmount a = true) :
    transfer db ⟨X, X, a⟩ s1 s2 = (.badRequest .selfTransfer, db, []) := by
  have hparts := (isPositiveAmount_iff a).1 ha
  have hv : validate ⟨X, X, a⟩ = some .selfTransfer := by
    simp [validate, jsFalsyId, hX, hparts.1, hparts.2.1, hparts.2.2]
  exact transfer_validate_some s1 s2 hv

/-- Closed instance of the self-transfer claim on the sample store. -/
theorem selfTransfer_witness :
    transfer sampleDb ⟨accAid, accAid, .num (.fin 100)⟩ true true
      = (.badRequest .selfTransfer, sampleDb, []) :=
  selfTransfer_rejected sampleDb true true accAid (.num (.fin 100))
    (by decide) (by decide)

/-- Claim C8: a validated transfer in which the sender id or the receiver id
is absent from the store fails with the 404 response naming the missing
side — the sender when the sender is missing, otherwise the receiver — and
performs no write: the store is returned unchanged and the operations are
the two reads. -/
theorem missingAccount_notFound {db : Store} {r : Request} (s1 s2 : Bool)
    (hv : validate r = none)
    (hmiss : findById db r.fromAccountId = none ∨ findById db r.toAccountId = none) :
    transfer db r s1 s2 =
      ((if findById db r.fromAccountId = none then Resp.notFound .sender
        else Resp.notFound .receiver),
        db, [.read r.fromAccountId, .read r.toAccountId]) := by
  cases hs : findById db r.fromAccountId with
  | none => simp [transfer_notFound_sender s1 s2 hv hs]
  | some sender =>
    rcases hmiss with hm | hm
    · rw [hs] at hm
      exact absurd hm (by simp)
    · simp [transfer_notFound_receiver s1 s2 hv hs hm, hs]

/-- Closed instance of the missing-account claim: the receiver id is absent
from the sample store. -/
theorem missingAccount_witness :
    transfer sampleDb ⟨accAid, accCid, .num (.fin 50)⟩ true true
      = (.notFound .receiver, sampleDb, [.read accAid, .read accCid]) := by
  rw [missingAccount_notFound true true (by decide) (Or.inr (by decide))]
  decide

/-- Claim C9 counterexample: a request whose amount is the non-finite number
Infinity passes the whole validation block — no violation is returned — and
the handler then proceeds to access the store, contrary to the requirement
that every non-finite amount be rejected with InvalidArgument before any
store access. -/
theorem validation_counterexample :
    validate ⟨accAid, accBid, .num .posInf⟩ = none ∧
    (transfer sampleDb ⟨accAid, accBid, .num .posInf⟩ true true).2.2
      = [.read accAid, .read accBid] := by
  decide

/-- Claim C9 (amended): the validation block, which never touches the store,
accepts a request exactly when both ids are nonempty well-formed ObjectIds,
the ids differ, and the amount is a positive number — including the
non-finite value Infinity, which is not rejected (zero and NaN amounts fall
to the falsy missing-field check, negative and non-numeric amounts to the
amount check); and whenever validation returns a violation the handler
answers it directly with the store untouched and no store operation
performed. -/
theorem validation_amended (r : Request) (db : Store) (s1 s2 : Bool) :
    (validate r = none ↔
      jsFalsyId r.fromAccountId = false ∧ jsFalsyId r.toAccountId = false ∧
      isPositiveAmount r.amount = true ∧ r.fromAccountId ≠ r.toAccountId ∧
      isValidObjectId r.fromAccountId = true ∧ isValidObjectId r.toAccountId = true) ∧
    (∀ e, validate r = some e → transfer db r s1 s2 = (.badRequest e, db, [])) :=
  ⟨validate_none_iff r, fun _ he => transfer_validate_some s1 s2 he⟩

/-- Closed instance of the amended validation claim: a negative amount is
rejected with no store access, and a well-formed positive request passes. -/
theorem validation_witness :
    transfer sampleDb ⟨accAid, accBid, .num (.fin (-5))⟩ true true
      = (.badRequest .nonPositiveAmount, sampleDb, []) ∧
    validate ⟨accAid, accBid, .num (.fin 300)⟩ = none :=
  ⟨(validation_amended ⟨accAid, accBid, .num (.fin (-5))⟩ sampleDb true true).2
      .nonPositiveAmount (by decide),
   (validation_amended ⟨accAid, accBid, .num (.fin 300)⟩ sampleDb true true).1.mpr
      (by refine ⟨by decide, by decide, by decide, by decide, by decide, by decide⟩)⟩

/-- Claim C10: a successful transfer answers with the two new balances,
leaves every account other than the sender and the receiver exactly as it
was, keeps the set of stored ids unchanged, preserves the name field of
both touched documents, and writes only to the sender and receiver ids. -/
theorem successful_transfer_frame {db : Store} {r : Request}
    {sender receiver : Account}
    (hv : validate r = none)
    (hs : findById db r.fromAccountId = some sender)
    (hr : findById db r.toAccountId = some receiver)
    (hf : jsLtAmount sender.balance r.amount = false) :
    (transfer db r true true).1
      = .success (sender.balance - finVal r.amount)
          (receiver.balance + finVal r.amount) ∧
    (∀ j, j ≠ r.fromAccountId → j ≠ r.toAccountId →
      findById (transfer db r true true).2.1 j = findById db j) ∧
    keys (transfer db r true true).2.1 = keys db ∧
    (findById (transfer db r true true).2.1 r.fromAccountId).map Account.name
      = some sender.name ∧
    (findById (transfer db r true true).2.1 r.toAccountId).map Account.name
      = some receiver.name ∧
    (∀ j, StoreOp.write j ∈ (transfer db r true true).2.2 →
      j = r.fromAccountId ∨ j = r.toAccountId) := by
  have hAB : r.fromAccountId ≠ r.toAccountId := validate_none_ne hv
  rw [transfer_success_eq hv hs hr hf]
  refine ⟨rfl, ?_, ?_, ?_, ?_, ?_⟩
  · intro j hjf hjt
    rw [findById_saveAccount_ne _ hjt, findById_saveAccount_ne _ hjf]
  · rw [keys_saveAccount, keys_saveAccount]
  · rw [findById_saveAccount_ne _ hAB,
      findById_saveAccount_self _ (by rw [hs]; rfl)]
    rfl
  · have hrre : findById (saveAccount db r.fromAccountId
        { sender with balance := sender.balance - finVal r.amount })
        r.toAccountId = some receiver := by
      rw [findById_saveAccount_ne _ (Ne.symm hAB)]
      exact hr
    rw [findById_saveAccount_self _ (by rw [hrre]; rfl)]
    rfl
  · intro j hj
    simpa using hj

/-- Closed instance of the frame claim: the transfer of 300 from UserA to
UserB does not affect a third id, keeps the stored ids, and keeps both
names. -/
theorem frame_witness :
    findById (transfer sampleDb ⟨accAid, accBid, .num (.fin 300)⟩ true true).2.1 accCid
      = findById sampleDb accCid ∧
    keys (transfer sampleDb ⟨accAid, accBid, .num (.fin 300)⟩ true true).2.1
      = keys sampleDb ∧
    (findById (transfer sampleDb ⟨accAid, accBid, .num (.fin 300)⟩ true true).2.1
      accAid).map Account.name = some "UserA" :=
  ⟨(@successful_transfer_frame sampleDb ⟨accAid, accBid, .num (.fin 300)⟩
      ⟨"UserA", 1000⟩ ⟨"UserB", 500⟩
      (by decide) (by decide) (by decide) (by decide)).2.1 accCid
      (by decide) (by decide),
   (@successful_transfer_frame sampleDb ⟨accAid, accBid, .num (.fin 300)⟩
      ⟨"UserA", 1000⟩ ⟨"UserB", 500⟩
      (by decide) (by decide) (by decide) (by decide)).2.2.1,
   (@successful_transfer_frame sampleDb ⟨accAid, accBid, .num (.fin 300)⟩
      ⟨"UserA", 1000⟩ ⟨"UserB", 500⟩
      (by decide) (by decide) (by decide) (by decide)).2.2.2.1⟩
